import Mathlib

/-!
Verification of the morphism-labs node repository: a shallow embedding of the
L1 deposit-log decoder (`sync/deposit_log.go`) and the consensus-facing block
lifecycle callbacks of the Executor (`node/executor.go`), together with
theorems settling the specification claims about them.

Conventions of the embedding:
  * Go byte slices become `List Nat` (each entry a byte value).
  * 32-byte hashes and 20-byte addresses become their big-endian `Nat` value;
    `common.BytesToAddress` of a 32-byte word is `% 2 ^ 160` (last 20 bytes).
  * `big.Int` / `uint256` words read from data become `Nat` via `fromBytesBE`
    (the big-endian interpretation used by `SetBytes`); `IsUint64` becomes
    `< 2 ^ 64`.
  * Fallible Go functions returning `(value, error)` become `Except`, with an
    error enumeration carrying one constructor per distinct error site.
-/

set_option maxRecDepth 100000

deriving instance DecidableEq for Except

namespace MorphNode

/-- Big-endian interpretation of a byte list as a natural number: the meaning
of `big.Int.SetBytes` / `uint256.Int.SetBytes` on a Go byte slice. -/
def fromBytesBE : List Nat → Nat
  | [] => 0
  | b :: rest => b * 256 ^ rest.length + fromBytesBE rest

/-- Big-endian byte encoding of `n % 256 ^ w` in exactly `w` bytes. -/
def toBytesBE : Nat → Nat → List Nat
  | 0, _ => []
  | w + 1, n => toBytesBE w (n / 256) ++ [n % 256]

/-- An EVM log entry as consumed by the deposit decoder: emitting contract
address, topic words (32-byte words as `Nat` values), raw data bytes, and the
provenance recorded by the Syncer (`lg.BlockNumber`, `lg.TxHash`). -/
structure Log where
  address : Nat
  topics : List Nat
  data : List Nat
  blockNumber : Nat
  txHash : Nat
deriving DecidableEq

/-- `types.L1MessageTx` (scroll-tech go-ethereum): the typed deposit
transaction produced by the decoder.  Field set mirrors the Go struct:
QueueIndex, Gas, To (nil pointer = `none`), Value, Data, Sender. -/
structure L1MessageTx where
  queueIndex : Nat
  gas : Nat
  toAddr : Option Nat
  value : Nat
  data : List Nat
  sender : Nat
deriving DecidableEq

/-- `sync.L1Message`: an `L1MessageTx` plus provenance, as assembled by
`deriveFromReceipt`. -/
structure L1Message where
  tx : L1MessageTx
  l1Height : Nat
  l1TxHash : Nat
deriving DecidableEq

/-- One decode-error class per distinct error return site of
`UnmarshalDepositLogEvent` / `unmarshalDepositVersion0`. -/
inductive DecodeErr
  | badTopicCount (got : Nat)
  | badSelector
  | dataTooShort
  | dataNotMultiple32
  | badOffsetWord
  | badLengthWord
  | badOpaqueLength
  | badGasValue
  | unsupportedVersion (version : Nat)
deriving DecidableEq

/-- Spec error taxonomy: every decoder rejection except the unknown-version
case is classified `MalformedInput`. -/
def DecodeErr.isMalformedInput : DecodeErr → Bool
  | .unsupportedVersion _ => false
  | _ => true

/-- keccak256 of "TransactionDeposited(address,address,uint256,bytes)"
(`DepositEventABIHash` in `deposit_log.go`; value computed offline — the code
only ever compares topic words against it). -/
def DepositEventABIHash : Nat :=
  0xb3813568d9991fc951961fcb4c784893574240a28925604d09fc577c55bb7c32

/-- `DepositEventVersion0 = common.Hash{}`: the all-zero 32-byte word. -/
def DepositEventVersion0 : Nat := 0

/-- `unmarshalDepositVersion0` of `sync/deposit_log.go`: decode the tightly
packed opaque payload `mint(32) ‖ value(32) ‖ gasLimit(8) ‖ isCreation(1) ‖
data`.  As in the source, `mint` (and the caller's `from` topic) are parsed
and traced but never stored in the returned message. -/
def unmarshalDepositVersion0 (toAddr : Nat) (opaqueData : List Nat) :
    Except DecodeErr L1MessageTx :=
  if opaqueData.length < 32 + 32 + 8 + 1 then
    .error .badOpaqueLength
  else
    let _mint := fromBytesBE (opaqueData.take 32)
    let value := fromBytesBE ((opaqueData.drop 32).take 32)
    let gas := fromBytesBE ((opaqueData.drop 64).take 8)
    if ¬ (gas < 2 ^ 64) then
      .error .badGasValue
    else
      let isCreation := opaqueData.getD 72 0
      let txData := opaqueData.drop 73
      .ok { queueIndex := 0
            gas := gas
            toAddr := if isCreation = 0 then some toAddr else none
            value := value
            data := txData
            sender := 0 }

/-- `UnmarshalDepositLogEvent` of `sync/deposit_log.go`: validation steps in
source order — topic count, selector, data length ≥ 64 and multiple of 32,
offset word = 32, length word bounds, then version dispatch. -/
def UnmarshalDepositLogEvent (ev : Log) : Except DecodeErr L1MessageTx :=
  if ev.topics.length ≠ 4 then
    .error (.badTopicCount ev.topics.length)
  else if ev.topics.getD 0 0 ≠ DepositEventABIHash then
    .error .badSelector
  else if ev.data.length < 64 then
    .error .dataTooShort
  else if ev.data.length % 32 ≠ 0 then
    .error .dataNotMultiple32
  else
    let _from := ev.topics.getD 1 0 % 2 ^ 160
    let toAddr := ev.topics.getD 2 0 % 2 ^ 160
    let version := ev.topics.getD 3 0
    let opaqueContentOffset := fromBytesBE (ev.data.take 32)
    if ¬ (opaqueContentOffset < 2 ^ 64) ∨ opaqueContentOffset ≠ 32 then
      .error .badOffsetWord
    else
      let opaqueContentLength := fromBytesBE ((ev.data.drop 32).take 32)
      if ¬ (opaqueContentLength < 2 ^ 64) ∨
          opaqueContentLength > ev.data.length - 64 ∨
          opaqueContentLength + 32 ≤ ev.data.length - 64 then
        .error .badLengthWord
      else
        let opaqueData := (ev.data.drop 64).take opaqueContentLength
        if version = DepositEventVersion0 then
          unmarshalDepositVersion0 toAddr opaqueData
        else
          .error (.unsupportedVersion version)

/-- `types.Receipt` as used by `deriveFromReceipt`: status word and logs. -/
structure Receipt where
  status : Nat
  logs : List Log
deriving DecidableEq

/-- `types.ReceiptStatusSuccessful`. -/
def ReceiptStatusSuccessful : Nat := 1

/-- One entry of the `multierror` aggregate built by `deriveFromReceipt`:
the receipt index, log index and decode error of one failed item. -/
structure DeriveFailure where
  receiptIdx : Nat
  logIdx : Nat
  err : DecodeErr
deriving DecidableEq

/-- The per-log filter of `deriveFromReceipt`'s inner loop:
`lg.Address == depositContractAddr && len(lg.Topics) > 0 &&
lg.Topics[0] == DepositEventABIHash`. -/
def logMatches (addr : Nat) (lg : Log) : Bool :=
  decide (lg.address = addr ∧ 0 < lg.topics.length ∧
     lg.topics.getD 0 0 = DepositEventABIHash)

/-- Inner loop of `deriveFromReceipt` over the (index, log) pairs of one
successful receipt: decode each matching log, collecting successes and
failures in encounter order. -/
def deriveLogsGo (addr : Nat) (i : Nat) :
    List (Nat × Log) → List L1Message × List DeriveFailure
  | [] => ([], [])
  | (j, lg) :: rest =>
    let tail := deriveLogsGo addr i rest
    if logMatches addr lg then
      match UnmarshalDepositLogEvent lg with
      | .error er => (tail.1, ⟨i, j, er⟩ :: tail.2)
      | .ok msg => (⟨msg, lg.blockNumber, lg.txHash⟩ :: tail.1, tail.2)
    else tail

/-- Outer loop of `deriveFromReceipt` over the (index, receipt) pairs:
receipts with unsuccessful status are skipped wholesale. -/
def deriveReceiptsGo (addr : Nat) :
    List (Nat × Receipt) → List L1Message × List DeriveFailure
  | [] => ([], [])
  | (i, rec) :: rest =>
    let tail := deriveReceiptsGo addr rest
    if rec.status = ReceiptStatusSuccessful then
      let head := deriveLogsGo addr i rec.logs.enum
      (head.1 ++ tail.1, head.2 ++ tail.2)
    else tail

/-- `deriveFromReceipt` of `sync/deposit_log.go`: derive L1 messages from a
batch of receipts, returning the decoded messages and the aggregated
per-item failures (the `multierror` value, `[]` standing for a nil error). -/
def deriveFromReceipt (receipts : List Receipt) (depositContractAddr : Nat) :
    List L1Message × List DeriveFailure :=
  deriveReceiptsGo depositContractAddr receipts.enum

/-! ## Wire encodings of the consensus callback surface

`types.BLSMessage` and `types.NonBLSMessage` (with their `MarshalBinary` /
`UnmarshalBinary` methods) live in the repository's `types` package, which is
not among the provided sources; they are modelled from the spec below. -/

/-- `types.BLSMessage` — the attested header: parent hash, proposer, block
number, gas limit, base fee, timestamp (the fields `Executor.RequestBlockData`
copies out of the assembled block). -/
structure BLSMessage where
  parentHash : Nat
  miner : Nat
  number : Nat
  gasLimit : Nat
  baseFee : Nat
  timestamp : Nat
deriving DecidableEq

/-- A transaction as carried in the callbacks' `txs` list: either an
L1-originated deposit transaction (`eth.NewTx(&l1Message.L1MessageTx)`) or an
ordinary engine-admitted transaction, kept as opaque bytes. -/
inductive Tx
  | l1Msg (m : L1MessageTx)
  | other (bytes : List Nat)
deriving DecidableEq

/-- `types.NonBLSMessage` — the extended payload: state root, gas used,
receipt root, logs bloom, extra data, and the exact ordered list of included
`L1Message` entries. -/
structure NonBLSMessage where
  stateRoot : Nat
  gasUsed : Nat
  receiptRoot : Nat
  logsBloom : Nat
  extra : List Nat
  l1Messages : List L1Message
deriving DecidableEq

/-- Error for the fixed-layout wire decoders. -/
inductive WireErr
  | badLength
deriving DecidableEq

/-- Modelled from the spec: `BLSMessage.MarshalBinary`, a fixed-field binary
encoding of the attested header (32-byte parent hash, 20-byte proposer,
8-byte number, 8-byte gas limit, 32-byte base fee, 8-byte timestamp;
108 bytes in all; not self-describing). -/
def BLSMessage.marshalBinary (m : BLSMessage) : List Nat :=
  toBytesBE 32 m.parentHash ++ toBytesBE 20 m.miner ++ toBytesBE 8 m.number ++
  toBytesBE 8 m.gasLimit ++ toBytesBE 32 m.baseFee ++ toBytesBE 8 m.timestamp

/-- Modelled from the spec: `BLSMessage.UnmarshalBinary`, inverse of the
fixed 108-byte layout; any other length is a malformed encoding. -/
def BLSMessage.unmarshalBinary (b : List Nat) : Except WireErr BLSMessage :=
  if b.length = 108 then
    .ok { parentHash := fromBytesBE (b.take 32)
          miner := fromBytesBE ((b.drop 32).take 20)
          number := fromBytesBE ((b.drop 52).take 8)
          gasLimit := fromBytesBE ((b.drop 60).take 8)
          baseFee := fromBytesBE ((b.drop 68).take 32)
          timestamp := fromBytesBE ((b.drop 100).take 8) }
  else
    .error .badLength

/-- Modelled from the spec: fixed-field encoding of one `L1MessageTx` inside
the extended payload (8-byte queue index, 8-byte gas, 1-byte recipient flag +
20-byte recipient, 32-byte value, 8-byte data length + data, 20-byte
sender). -/
def encodeL1MessageTx (t : L1MessageTx) : List Nat :=
  toBytesBE 8 t.queueIndex ++ toBytesBE 8 t.gas ++
  (match t.toAddr with
   | none => 0 :: toBytesBE 20 0
   | some a => 1 :: toBytesBE 20 a) ++
  toBytesBE 32 t.value ++ toBytesBE 8 t.data.length ++ t.data ++
  toBytesBE 20 t.sender

/-- Modelled from the spec: encoding of one `L1Message` (transaction plus
8-byte source height and 32-byte source transaction hash). -/
def encodeL1Message (m : L1Message) : List Nat :=
  encodeL1MessageTx m.tx ++ toBytesBE 8 m.l1Height ++ toBytesBE 32 m.l1TxHash

/-- Concatenation of a list of byte strings. -/
def concatAll : List (List Nat) → List Nat
  | [] => []
  | x :: xs => x ++ concatAll xs

/-- Modelled from the spec: `NonBLSMessage.MarshalBinary`, a fixed-field
binary encoding of the extended payload (32-byte state root, 8-byte gas used,
32-byte receipt root, 256-byte logs bloom, length-prefixed extra data,
count-prefixed message list; at least 344 bytes). -/
def NonBLSMessage.marshalBinary (m : NonBLSMessage) : List Nat :=
  toBytesBE 32 m.stateRoot ++ toBytesBE 8 m.gasUsed ++
  toBytesBE 32 m.receiptRoot ++ toBytesBE 256 m.logsBloom ++
  toBytesBE 8 m.extra.length ++ m.extra ++
  toBytesBE 8 m.l1Messages.length ++ concatAll (m.l1Messages.map encodeL1Message)

/-- Decoder for one encoded `L1MessageTx`, returning the remaining bytes. -/
def decodeL1MessageTx (b : List Nat) : Except WireErr (L1MessageTx × List Nat) :=
  if 77 ≤ b.length then
    let queueIndex := fromBytesBE (b.take 8)
    let gas := fromBytesBE ((b.drop 8).take 8)
    let toFlag := b.getD 16 0
    let a := fromBytesBE ((b.drop 17).take 20)
    let value := fromBytesBE ((b.drop 37).take 32)
    let dataLen := fromBytesBE ((b.drop 69).take 8)
    let rest := b.drop 77
    if dataLen + 20 ≤ rest.length then
      let data := rest.take dataLen
      let sender := fromBytesBE ((rest.drop dataLen).take 20)
      .ok ({ queueIndex := queueIndex
             gas := gas
             toAddr := if toFlag = 0 then none else some a
             value := value
             data := data
             sender := sender }, rest.drop (dataLen + 20))
    else
      .error .badLength
  else
    .error .badLength

/-- Decoder for one encoded `L1Message`, returning the remaining bytes. -/
def decodeL1Message (b : List Nat) : Except WireErr (L1Message × List Nat) :=
  match decodeL1MessageTx b with
  | .error e => .error e
  | .ok (tx, rest) =>
    if 40 ≤ rest.length then
      .ok ({ tx := tx
             l1Height := fromBytesBE (rest.take 8)
             l1TxHash := fromBytesBE ((rest.drop 8).take 32) }, rest.drop 40)
    else
      .error .badLength

/-- Decoder for a count-prefixed list of encoded `L1Message` entries. -/
def decodeL1Messages : Nat → List Nat → Except WireErr (List L1Message × List Nat)
  | 0, b => .ok ([], b)
  | n + 1, b =>
    match decodeL1Message b with
    | .error e => .error e
    | .ok (m, rest) =>
      match decodeL1Messages n rest with
      | .error e => .error e
      | .ok (ms, rest2) => .ok (m :: ms, rest2)

/-- Modelled from the spec: `NonBLSMessage.UnmarshalBinary`, inverse of
`NonBLSMessage.marshalBinary`; trailing or missing bytes are a malformed
encoding. -/
def NonBLSMessage.unmarshalBinary (b : List Nat) : Except WireErr NonBLSMessage :=
  if 336 ≤ b.length then
    let stateRoot := fromBytesBE (b.take 32)
    let gasUsed := fromBytesBE ((b.drop 32).take 8)
    let receiptRoot := fromBytesBE ((b.drop 40).take 32)
    let logsBloom := fromBytesBE ((b.drop 72).take 256)
    let extraLen := fromBytesBE ((b.drop 328).take 8)
    let rest := b.drop 336
    if extraLen + 8 ≤ rest.length then
      let extra := rest.take extraLen
      let msgCount := fromBytesBE ((rest.drop extraLen).take 8)
      match decodeL1Messages msgCount (rest.drop (extraLen + 8)) with
      | .error e => .error e
      | .ok (msgs, leftover) =>
        if leftover.length = 0 then
          .ok { stateRoot := stateRoot
                gasUsed := gasUsed
                receiptRoot := receiptRoot
                logsBloom := logsBloom
                extra := extra
                l1Messages := msgs }
        else
          .error .badLength
    else
      .error .badLength
  else
    .error .badLength

/-! ## The Executor and its callback surface (`node/executor.go`) -/

/-- Error classes surfaced by the Executor callbacks: the role-gate error
(`"... is not alllowed to be called"`), transport/engine RPC failures, wire
decode failures, L1-message validation failures, and
`types.ErrWrongBlockNumber`. -/
inductive EngineErr
  | failure (code : Nat)
deriving DecidableEq

inductive ExecErr
  | notAllowed
  | engine (e : EngineErr)
  | wire (e : WireErr)
  | l1MsgValidationFailed
  | wrongBlockNumber
deriving DecidableEq

/-- `node.Executor` state relevant to the callbacks: the L1-message cursor,
the static per-block bound, and the nilable Syncer reference (modelled by its
durable ordered message store); `syncer = none` is the Validator variant made
by `NewExecutor`, `syncer = some store` the Sequencer variant made by
`NewSequencerExecutor`. -/
structure Executor where
  latestProcessedL1Index : Nat
  maxL1MsgNumPerBlock : Nat
  syncer : Option (List L1Message)
deriving DecidableEq

/-- Modelled from the spec: `Syncer.ReadL1MessagesInRange` is not among the
provided sources; per the read contract it returns the ordered contiguous
subsequence of durable messages whose queue index lies in
`[fromIndex, toIndex]`. -/
def ReadL1MessagesInRange (store : List L1Message) (fromIndex toIndex : Nat) :
    List L1Message :=
  store.filter fun m =>
    decide (fromIndex ≤ m.tx.queueIndex ∧ m.tx.queueIndex ≤ toIndex)

/-- Number of L1-originated transactions in a transaction list. -/
def countL1Messages (txs : List Tx) : Nat :=
  (txs.filter fun t => match t with | .l1Msg _ => true | .other _ => false).length

/-- Modelled from the spec: `Executor.updateLatestProcessedL1Index` is not
among the provided sources; per the spec it advances
`latestProcessedL1Index` by the count of L1 messages included in the
delivered block's transactions (the step that "cannot itself fail"). -/
def updateLatestProcessedL1Index (e : Executor) (txs : List Tx) : Executor :=
  { e with latestProcessedL1Index := e.latestProcessedL1Index + countL1Messages txs }

/-- Modelled from the spec: `Executor.validateL1Messages` is not among the
provided sources; per the spec it verifies that the payload's declared
L1-message list is contiguous from `latestProcessedL1Index + 1`, bounded by
`maxL1MsgNumPerBlock`, identical to what the local queue holds at those
positions, and matched by the L1 transactions of the block. -/
def validateL1Messages (e : Executor) (txs : List Tx) (nbm : NonBLSMessage) :
    Option ExecErr :=
  let queue := e.syncer.getD []
  let expected := ReadL1MessagesInRange queue (e.latestProcessedL1Index + 1)
    (e.latestProcessedL1Index + nbm.l1Messages.length)
  if nbm.l1Messages.length ≤ e.maxL1MsgNumPerBlock ∧
      nbm.l1Messages = expected ∧
      (txs.filterMap fun t =>
        match t with | .l1Msg m => some m | .other _ => none) =
        nbm.l1Messages.map (·.tx) then
    none
  else
    some .l1MsgValidationFailed

/-- The assembled candidate block (`catalyst.ExecutableL2Data`) returned by
the execution engine's `AssembleL2Block`. -/
structure L2Block where
  parentHash : Nat
  miner : Nat
  number : Nat
  gasLimit : Nat
  baseFee : Nat
  timestamp : Nat
  stateRoot : Nat
  gasUsed : Nat
  receiptRoot : Nat
  logsBloom : Nat
  extra : List Nat
  transactions : List Tx
deriving DecidableEq

/-- Result quadruple of `RequestBlockData`:
`(txs, l2Config, zkConfig, err)`. -/
structure RequestResult where
  txs : List Tx
  l2Config : Option (List Nat)
  zkConfig : Option (List Nat)
  err : Option ExecErr
deriving DecidableEq

/-- `Executor.RequestBlockData`: sequencer-only proposal assembly.  Reads the
pending L1 messages, asks the engine (the `assemble` oracle, standing for
`authClient.AssembleL2Block`) for a candidate block, short-circuits to an
all-nil result when the candidate has no transactions, and otherwise returns
the raw transactions, the marshalled `BLSMessage` in `l2Config` and the
marshalled `NonBLSMessage` in `zkConfig` — exactly the assignment order of
the source. -/
def RequestBlockData (e : Executor) (height : Int)
    (assemble : Int → List Tx → Except EngineErr L2Block) : RequestResult :=
  match e.syncer with
  | none => ⟨[], none, none, some .notAllowed⟩
  | some store =>
    let l1Messages := ReadL1MessagesInRange store (e.latestProcessedL1Index + 1)
      (e.latestProcessedL1Index + e.maxL1MsgNumPerBlock)
    let transactions := l1Messages.map fun m => Tx.l1Msg m.tx
    match assemble height transactions with
    | .error er => ⟨[], none, none, some (.engine er)⟩
    | .ok l2Block =>
      if l2Block.transactions.length = 0 then
        ⟨[], none, none, none⟩
      else
        let bm : BLSMessage :=
          { parentHash := l2Block.parentHash
            miner := l2Block.miner
            number := l2Block.number
            gasLimit := l2Block.gasLimit
            baseFee := l2Block.baseFee
            timestamp := l2Block.timestamp }
        let l2Config := bm.marshalBinary
        let nbm : NonBLSMessage :=
          { stateRoot := l2Block.stateRoot
            gasUsed := l2Block.gasUsed
            receiptRoot := l2Block.receiptRoot
            logsBloom := l2Block.logsBloom
            extra := l2Block.extra
            l1Messages := l1Messages }
        let zkConfig := nbm.marshalBinary
        ⟨l2Block.transactions, some l2Config, some zkConfig, none⟩

/-- `Executor.CheckBlockData`: role gate first (the source rejects when
`e.syncer == nil`), then the empty-input short-circuit
(`len(txs) == 0 || l2Config == nil || zkConfig == nil`), then — exactly as in
the source — the `BLSMessage` is unmarshalled from `zkConfig` and the
`NonBLSMessage` from `l2Config`, the L1 messages are validated, and the
engine's validate call (the `validateResult` oracle, standing for
`authClient.ValidateL2Block`) decides validity. -/
def CheckBlockData (e : Executor) (txs : List Tx)
    (l2Config zkConfig : Option (List Nat))
    (validateResult : Except EngineErr Bool) : Bool × Option ExecErr :=
  match e.syncer with
  | none => (false, some .notAllowed)
  | some _ =>
    match txs, l2Config, zkConfig with
    | _ :: _, some lb, some zb =>
      match BLSMessage.unmarshalBinary zb with
      | .error er => (false, some (.wire er))
      | .ok _bm =>
        match NonBLSMessage.unmarshalBinary lb with
        | .error er => (false, some (.wire er))
        | .ok nbm =>
          match validateL1Messages e txs nbm with
          | some er => (false, some er)
          | none =>
            match validateResult with
            | .error er => (false, some (.engine er))
            | .ok v => (v, none)
    | _, _, _ => (false, none)

/-- Two's-complement reinterpretation of a `uint64` as Go's `int64(height)`. -/
def int64OfUint64 (n : Nat) : Int :=
  if n % 2 ^ 64 < 2 ^ 63 then
    Int.ofNat (n % 2 ^ 64)
  else
    Int.ofNat (n % 2 ^ 64) - 2 ^ 64

/-- Outcome of `DeliverBlock`: the post-call executor state, the returned
height, the returned error, and whether the import (`authClient.NewL2Block`)
was invoked. -/
structure DeliverResult where
  state : Executor
  ret : Int
  err : Option ExecErr
  importCalled : Bool
deriving DecidableEq

/-- `Executor.DeliverBlock`: queries the engine height (`blockNumberResult`
oracle, standing for `ethClient.BlockNumber`), short-circuits empty input to
a height confirmation, unmarshals the `BLSMessage` from `zkConfig` and the
`NonBLSMessage` from `l2Config` (as the source does), rejects with
`ErrWrongBlockNumber` unless `height + 1 == bm.Number` (uint64 arithmetic),
then imports via the `importResult` oracle (`authClient.NewL2Block`), and on
success advances the L1 cursor.  Every return carries `currentBlockNumber =
int64(height)` — the height queried before the import. -/
def DeliverBlock (e : Executor) (txs : List Tx)
    (l2Config zkConfig : Option (List Nat))
    (blockNumberResult : Except EngineErr Nat)
    (importResult : Except EngineErr Unit) : DeliverResult :=
  match blockNumberResult with
  | .error er => ⟨e, 0, some (.engine er), false⟩
  | .ok height =>
    let currentBlockNumber := int64OfUint64 height
    match txs, l2Config, zkConfig with
    | _ :: _, some lb, some zb =>
      match BLSMessage.unmarshalBinary zb with
      | .error er => ⟨e, currentBlockNumber, some (.wire er), false⟩
      | .ok bm =>
        match NonBLSMessage.unmarshalBinary lb with
        | .error er => ⟨e, currentBlockNumber, some (.wire er), false⟩
        | .ok _nbm =>
          if (height + 1) % 2 ^ 64 ≠ bm.number then
            ⟨e, currentBlockNumber, some .wrongBlockNumber, false⟩
          else
            match importResult with
            | .error er => ⟨e, currentBlockNumber, some (.engine er), true⟩
            | .ok _ => ⟨updateLatestProcessedL1Index e txs, currentBlockNumber, none, true⟩
    | _, _, _ => ⟨e, currentBlockNumber, none, false⟩

/-! ## Declarative characterization of `deriveFromReceipt`

The loop of `deriveFromReceipt` is related below to a direct description:
the (receipt index, log index, log) triples surviving its status / address /
topic filter, in encounter order, each mapped to its decode outcome. -/

/-- The successful decode outcome of one log, if any, as stored by
`deriveFromReceipt`. -/
def msgOf (lg : Log) : Option L1Message :=
  match UnmarshalDepositLogEvent lg with
  | .ok m => some ⟨m, lg.blockNumber, lg.txHash⟩
  | .error _ => none

/-- The failure outcome of one log, if any, as recorded by
`deriveFromReceipt` with its receipt and log indices. -/
def failOf (i j : Nat) (lg : Log) : Option DeriveFailure :=
  match UnmarshalDepositLogEvent lg with
  | .error er => some ⟨i, j, er⟩
  | .ok _ => none

/-- The indexed logs that `deriveFromReceipt`'s filters select, in encounter
order: logs of successful-status receipts whose address and first topic
match, paired with their receipt and log indices. -/
def matchingLogsAux (addr : Nat) : List (Nat × Receipt) → List (Nat × Nat × Log)
  | [] => []
  | (i, rec) :: rest =>
    (if rec.status = ReceiptStatusSuccessful then
      (rec.logs.enum.filter fun q => logMatches addr q.2).map fun q => (i, q.1, q.2)
    else []) ++ matchingLogsAux addr rest

/-- `matchingLogsAux` applied to an indexed receipt batch. -/
def matchingDepositLogs (receipts : List Receipt) (addr : Nat) :
    List (Nat × Nat × Log) :=
  matchingLogsAux addr receipts.enum

/-! ## Concrete example values used by closed theorems and witnesses -/

/-- A 73-byte version-0 opaque payload: mint word ending in byte 9, value
word ending in byte 7, gas bytes encoding 21000, creation flag 0, no call
data. -/
def od73 : List Nat :=
  List.replicate 31 0 ++ [9] ++ List.replicate 31 0 ++ [7] ++
  [0, 0, 0, 0, 0, 0, 82, 8] ++ [0]

/-- A well-formed version-0 deposit log whose mint word ends in `mintByte`:
offset word 32, length word 73, opaque payload as in `od73` (with the given
mint byte), zero-padded to 96 bytes. -/
def c5Log (mintByte : Nat) : Log :=
  { address := 1
    topics := [DepositEventABIHash, 5, 3, 0]
    data := toBytesBE 32 32 ++ toBytesBE 32 73 ++
      (List.replicate 31 0 ++ [mintByte] ++ List.replicate 31 0 ++ [7] ++
       [0, 0, 0, 0, 0, 0, 82, 8] ++ [0]) ++ List.replicate 23 0
    blockNumber := 10
    txHash := 2 }

/-- The message `c5Log` decodes to: note the zero sender and the absence of
any mint field. -/
def c5Msg : L1MessageTx :=
  { queueIndex := 0, gas := 21000, toAddr := some 3, value := 7, data := [], sender := 0 }

/-- A log that passes the topic, selector, data-length and offset-word checks
but declares opaque length 1 inside 64 bytes of payload space (non-minimal
padding). -/
def ev7 : Log :=
  { address := 1
    topics := [DepositEventABIHash, 0, 0, 0]
    data := toBytesBE 32 32 ++ toBytesBE 32 1 ++ List.replicate 64 0
    blockNumber := 0
    txHash := 0 }

/-- A receipt batch containing a failed receipt with a matching-looking log
and a successful receipt with one wrong-address log and one matching log. -/
def rs10a : List Receipt :=
  [⟨0, [c5Log 9]⟩, ⟨1, [⟨2, [DepositEventABIHash, 0, 0, 0], [1, 2, 3], 5, 6⟩, c5Log 9]⟩]

/-- The same batch with every skipped log blanked out: same matching logs at
the same indices. -/
def rs10b : List Receipt :=
  [⟨0, []⟩, ⟨1, [⟨1, [], [], 0, 0⟩, c5Log 9]⟩]

/-- Sequencer executor with an empty store and a per-block bound of 2. -/
def eC1 : Executor := ⟨0, 2, some []⟩

/-- A candidate block the engine assembles for `eC1`. -/
def blkC1 : L2Block := ⟨1, 2, 8, 3, 4, 5, 6, 7, 8, 9, [], [Tx.other [1]]⟩

/-- The result of `RequestBlockData` on `eC1` with `blkC1` assembled. -/
def rC1 : RequestResult := RequestBlockData eC1 7 fun _ _ => .ok blkC1

/-- The attested header of `blkC1`. -/
def bmC1 : BLSMessage := ⟨1, 2, 8, 3, 4, 5⟩

/-- The extended payload of `blkC1` (no pending L1 messages). -/
def nbmC1 : NonBLSMessage := ⟨6, 7, 8, 9, [], []⟩

/-- A header whose number, 6, is exactly one above engine height 5. -/
def bm3 : BLSMessage := ⟨0, 0, 6, 0, 0, 0⟩

/-- A header whose number, 9, is not one above engine height 5. -/
def bm4 : BLSMessage := ⟨0, 0, 9, 0, 0, 0⟩

/-- An empty extended payload. -/
def nbm3 : NonBLSMessage := ⟨0, 0, 0, 0, [], []⟩

/-! ## Helper lemmas -/

/-- A list of bytes denotes a value below `256 ^ length`. -/
theorem fromBytesBE_lt_of_bytes (l : List Nat) (h : ∀ b ∈ l, b < 256) :
    fromBytesBE l < 256 ^ l.length := by
  induction l with
  | nil => simp [fromBytesBE]
  | cons b rest ih =>
    have hb : b < 256 := h b (by simp)
    have hr : fromBytesBE rest < 256 ^ rest.length :=
      ih fun x hx => h x (by simp [hx])
    have hstep : b * 256 ^ rest.length + fromBytesBE rest
        < (b + 1) * 256 ^ rest.length := by
      have := Nat.add_lt_add_left hr (b * 256 ^ rest.length)
      calc b * 256 ^ rest.length + fromBytesBE rest
          < b * 256 ^ rest.length + 256 ^ rest.length := this
        _ = (b + 1) * 256 ^ rest.length := by ring
    calc fromBytesBE (b :: rest)
        = b * 256 ^ rest.length + fromBytesBE rest := rfl
      _ < (b + 1) * 256 ^ rest.length := hstep
      _ ≤ 256 * 256 ^ rest.length := Nat.mul_le_mul_right _ hb
      _ = 256 ^ (b :: rest).length := by
          simp [List.length_cons, pow_succ]; ring

/-- The 8-byte gas field of a byte-valued payload always fits 64 bits. -/
theorem gasField_lt (od : List Nat) (h : ∀ b ∈ od, b < 256) :
    fromBytesBE ((od.drop 64).take 8) < 2 ^ 64 := by
  have hsub : ∀ b ∈ (od.drop 64).take 8, b < 256 := fun b hb =>
    h b (List.drop_subset 64 od (List.take_subset 8 (od.drop 64) hb))
  have hlt := fromBytesBE_lt_of_bytes _ hsub
  have hlen : ((od.drop 64).take 8).length ≤ 8 := by
    simp [List.length_take_le]
  calc fromBytesBE ((od.drop 64).take 8)
      < 256 ^ ((od.drop 64).take 8).length := hlt
    _ ≤ 256 ^ 8 := Nat.pow_le_pow_right (by norm_num) hlen
    _ = 2 ^ 64 := by norm_num

/-- The version-0 decoder never produces the length-word rejection. -/
theorem unmarshalDepositVersion0_ne_badLengthWord (toAddr : Nat)
    (od : List Nat) :
    unmarshalDepositVersion0 toAddr od ≠ .error .badLengthWord := by
  unfold unmarshalDepositVersion0
  split
  · simp
  · dsimp only
    split
    · simp
    · simp

/-- The inner loop of `deriveFromReceipt` computes the decode outcomes of the
filtered, index-tagged logs of one receipt. -/
theorem deriveLogsGo_eq (addr i : Nat) (l : List (Nat × Log)) :
    deriveLogsGo addr i l =
      (((l.filter fun q => logMatches addr q.2).map fun q =>
          (i, q.1, q.2)).filterMap fun t => msgOf t.2.2,
       ((l.filter fun q => logMatches addr q.2).map fun q =>
          (i, q.1, q.2)).filterMap fun t => failOf t.1 t.2.1 t.2.2) := by
  induction l with
  | nil => rfl
  | cons q rest ih =>
    obtain ⟨j, lg⟩ := q
    by_cases hm : logMatches addr lg
    · cases hu : UnmarshalDepositLogEvent lg with
      | ok m =>
        simp [deriveLogsGo, List.filter_cons, hm, hu, msgOf, failOf, ih]
      | error er =>
        simp [deriveLogsGo, List.filter_cons, hm, hu, msgOf, failOf, ih]
    · simp [deriveLogsGo, List.filter_cons, hm, ih]

/-- The loop of `deriveFromReceipt` computes exactly the decode outcomes of
the matching indexed logs, in encounter order. -/
theorem deriveReceiptsGo_eq (addr : Nat) (l : List (Nat × Receipt)) :
    deriveReceiptsGo addr l =
      ((matchingLogsAux addr l).filterMap fun t => msgOf t.2.2,
       (matchingLogsAux addr l).filterMap fun t => failOf t.1 t.2.1 t.2.2) := by
  induction l with
  | nil => rfl
  | cons p rest ih =>
    obtain ⟨i, rec⟩ := p
    by_cases hs : rec.status = ReceiptStatusSuccessful
    · simp [deriveReceiptsGo, matchingLogsAux, hs, ih, deriveLogsGo_eq,
        List.filterMap_append]
    · simp [deriveReceiptsGo, matchingLogsAux, hs, ih]

/-! ## Claim theorems -/

/-- Claim C5: the claim asserts that the sender (first indexed topic) and the
mint amount (first 32 bytes of the opaque payload) are present in the decoded
message.  The code parses both and drops them: two well-formed version-0 logs
differing only in the mint word decode to the very same message, whose sender
field is the zero address rather than the `from`-topic address 5. -/
theorem c5_sender_and_mint_dropped :
    UnmarshalDepositLogEvent (c5Log 9) = .ok c5Msg ∧
    UnmarshalDepositLogEvent (c5Log 200) = .ok c5Msg ∧
    (c5Log 9).topics.getD 1 0 % 2 ^ 160 = 5 ∧
    c5Msg.sender = 0 ∧
    c5Msg.sender ≠ 5 := by decide

/-- Claim C6: for every well-formed version-0 payload, creation-flag byte 0
yields a recipient equal to the indexed `to` address, and any nonzero flag
byte leaves the recipient unset. -/
theorem c6_creation_flag (toAddr : Nat) (od : List Nat) (hlen : 73 ≤ od.length)
    (hbytes : ∀ b ∈ od, b < 256) :
    (unmarshalDepositVersion0 toAddr od).toOption.map L1MessageTx.toAddr =
      some (if od.getD 72 0 = 0 then some toAddr else none) := by
  have hgas := gasField_lt od hbytes
  have h1 : ¬ (od.length < 32 + 32 + 8 + 1) := by omega
  unfold unmarshalDepositVersion0
  rw [if_neg h1]
  dsimp only
  rw [if_neg (not_not_intro hgas)]
  simp [Except.toOption]

theorem c6_creation_flag_witness :
    (unmarshalDepositVersion0 7 od73).toOption.map L1MessageTx.toAddr =
      some (if od73.getD 72 0 = 0 then some 7 else none) :=
  c6_creation_flag 7 od73 (by decide) (by decide)

/-- Claim C7: once the topic, selector, data-length and offset-word checks
have passed, with `D` the data length and `L` the second 32-byte word,
decoding proceeds past the length-word check exactly when `L` fits 64 bits,
`L ≤ D - 64`, and `D - 64 < L + 32`; otherwise the decoder returns the
length-word rejection, classified `MalformedInput`. -/
theorem c7_length_word_gate (ev : Log)
    (h4 : ev.topics.length = 4)
    (hsel : ev.topics.getD 0 0 = DepositEventABIHash)
    (hD1 : 64 ≤ ev.data.length)
    (hD2 : ev.data.length % 32 = 0)
    (hoff : fromBytesBE (ev.data.take 32) = 32) :
    (UnmarshalDepositLogEvent ev = .error .badLengthWord ↔
      ¬ (fromBytesBE ((ev.data.drop 32).take 32) < 2 ^ 64 ∧
         fromBytesBE ((ev.data.drop 32).take 32) ≤ ev.data.length - 64 ∧
         ev.data.length - 64 < fromBytesBE ((ev.data.drop 32).take 32) + 32)) ∧
    DecodeErr.isMalformedInput .badLengthWord = true := by
  refine ⟨?_, rfl⟩
  have h4' : ¬ (ev.topics.length ≠ 4) := by omega
  have hD1' : ¬ (ev.data.length < 64) := by omega
  have hD2' : ¬ (ev.data.length % 32 ≠ 0) := by omega
  have hsel' : ¬ (ev.topics.getD 0 0 ≠ DepositEventABIHash) := not_not_intro hsel
  unfold UnmarshalDepositLogEvent
  rw [if_neg h4', if_neg hsel', if_neg hD1', if_neg hD2']
  dsimp only
  rw [if_neg (by rw [hoff]; norm_num)]
  set L := fromBytesBE ((ev.data.drop 32).take 32) with hL
  set D := ev.data.length with hD
  by_cases hC : ¬ (L < 2 ^ 64) ∨ L > D - 64 ∨ L + 32 ≤ D - 64
  · rw [if_pos hC]
    constructor
    · intro _
      omega
    · intro _
      rfl
  · rw [if_neg hC]
    constructor
    · intro hEq
      exfalso
      by_cases hv : ev.topics.getD 3 0 = DepositEventVersion0
      · rw [if_pos hv] at hEq
        exact unmarshalDepositVersion0_ne_badLengthWord _ _ hEq
      · rw [if_neg hv] at hEq
        simp at hEq
    · intro hn
      exfalso
      apply hn
      omega

theorem c7_length_word_gate_witness :
    (UnmarshalDepositLogEvent ev7 = .error .badLengthWord ↔
      ¬ (fromBytesBE ((ev7.data.drop 32).take 32) < 2 ^ 64 ∧
         fromBytesBE ((ev7.data.drop 32).take 32) ≤ ev7.data.length - 64 ∧
         ev7.data.length - 64 < fromBytesBE ((ev7.data.drop 32).take 32) + 32)) ∧
    DecodeErr.isMalformedInput .badLengthWord = true :=
  c7_length_word_gate ev7 (by decide) (by decide) (by decide) (by decide)
    (by decide)

/-- Claim C8: `deriveFromReceipt` returns exactly the successful decodes of
the matching logs, in encounter order, paired with one recorded failure per
failing matching log — a failing item neither aborts the batch nor
suppresses the successes. -/
theorem c8_partial_success (receipts : List Receipt) (addr : Nat) :
    deriveFromReceipt receipts addr =
      ((matchingDepositLogs receipts addr).filterMap fun t => msgOf t.2.2,
       (matchingDepositLogs receipts addr).filterMap fun t =>
         failOf t.1 t.2.1 t.2.2) :=
  deriveReceiptsGo_eq addr receipts.enum

/-- Claim C9: the gas-limit rejection of the version-0 decoder is
unreachable — on any byte-valued payload the 8-byte gas field fits 64 bits,
so the decoder never returns the bad-gas error and, once the payload is long
enough, decoding succeeds outright. -/
theorem c9_gas_check_unreachable (toAddr : Nat) (od : List Nat)
    (hbytes : ∀ b ∈ od, b < 256) :
    unmarshalDepositVersion0 toAddr od ≠ .error .badGasValue ∧
    (73 ≤ od.length →
      (unmarshalDepositVersion0 toAddr od).toOption.isSome = true) := by
  have hgas := gasField_lt od hbytes
  constructor
  · unfold unmarshalDepositVersion0
    split
    · simp
    · dsimp only
      rw [if_neg (not_not_intro hgas)]
      simp
  · intro hlen
    have h1 : ¬ (od.length < 32 + 32 + 8 + 1) := by omega
    unfold unmarshalDepositVersion0
    rw [if_neg h1]
    dsimp only
    rw [if_neg (not_not_intro hgas)]
    simp [Except.toOption]

theorem c9_gas_check_unreachable_witness :
    unmarshalDepositVersion0 7 od73 ≠ .error .badGasValue ∧
    (73 ≤ od73.length →
      (unmarshalDepositVersion0 7 od73).toOption.isSome = true) :=
  c9_gas_check_unreachable 7 od73 (by decide)

/-- Claim C10: `deriveFromReceipt` filters before decoding — its whole result
is a function of the indexed matching logs alone, so logs of failed receipts
and logs with the wrong address or first topic contribute neither a message
nor a recorded failure. -/
theorem c10_filter_before_decode (addr : Nat) (rs1 rs2 : List Receipt)
    (h : matchingDepositLogs rs1 addr = matchingDepositLogs rs2 addr) :
    deriveFromReceipt rs1 addr = deriveFromReceipt rs2 addr := by
  unfold deriveFromReceipt
  rw [deriveReceiptsGo_eq, deriveReceiptsGo_eq]
  unfold matchingDepositLogs at h
  rw [h]

theorem c10_filter_before_decode_witness :
    deriveFromReceipt rs10a 1 = deriveFromReceipt rs10b 1 :=
  c10_filter_before_decode 1 rs10a rs10b (by decide)

/-- Claim C1: the positional round-trip across the callback surface fails.
`RequestBlockData` marshals the attested header into its second result
(`l2Config`) and the extended payload into its third (`zkConfig`), but
`CheckBlockData` and `DeliverBlock` unmarshal the header from their third
argument and the payload from their second; feeding the outputs back in
positionally therefore decodes each byte string with the other type's
decoder and errors instead of round-tripping. -/
theorem c1_wire_swap_breaks_roundtrip :
    rC1.err = none ∧
    rC1.txs = [Tx.other [1]] ∧
    rC1.l2Config = some bmC1.marshalBinary ∧
    rC1.zkConfig = some nbmC1.marshalBinary ∧
    CheckBlockData eC1 rC1.txs rC1.l2Config rC1.zkConfig (.ok true) =
      (false, some (.wire .badLength)) ∧
    (DeliverBlock eC1 rC1.txs rC1.l2Config rC1.zkConfig (.ok 7) (.ok ())).err =
      some (.wire .badLength) ∧
    (DeliverBlock eC1 rC1.txs rC1.l2Config rC1.zkConfig (.ok 7) (.ok ())).importCalled =
      false := by decide

/-- Claim C2 counterexample: the claim asserts that a Validator-variant
Executor (no Syncer) answers an empty-input `CheckBlockData` with
`(false, nil)`; the code rejects the call with the role error instead. -/
theorem c2_validator_empty_check_errors :
    CheckBlockData ⟨0, 100, none⟩ [] none none (.ok true) ≠ (false, none) := by
  decide

/-- `validateL1Messages` reports only the L1-message validation error, never
the role error. -/
theorem validateL1Messages_ne_notAllowed (e : Executor) (txs : List Tx)
    (nbm : NonBLSMessage) :
    validateL1Messages e txs nbm ≠ some .notAllowed := by
  unfold validateL1Messages
  dsimp only
  split <;> simp

/-- Claim C2 (amended): `CheckBlockData` is role-gated exactly like
`RequestBlockData` — an Executor without a Syncer rejects it with the role
error; on an Executor with a Syncer, empty input short-circuits to
`(false, nil)` and non-empty input proceeds past the role gate into
deserialization and validation. -/
theorem c2_check_role_gate (e : Executor) (txs : List Tx)
    (l2Config zkConfig : Option (List Nat)) (vr : Except EngineErr Bool) :
    (e.syncer = none →
      CheckBlockData e txs l2Config zkConfig vr = (false, some .notAllowed)) ∧
    (e.syncer ≠ none → (txs = [] ∨ l2Config = none ∨ zkConfig = none) →
      CheckBlockData e txs l2Config zkConfig vr = (false, none)) ∧
    (e.syncer ≠ none →
      (CheckBlockData e txs l2Config zkConfig vr).2 ≠ some .notAllowed) := by
  obtain ⟨idx, maxN, sy⟩ := e
  cases sy with
  | none =>
    exact ⟨fun _ => rfl, fun hne _ => absurd rfl hne, fun hne => absurd rfl hne⟩
  | some store =>
    refine ⟨fun h => Option.noConfusion h, ?_, ?_⟩
    · intro _ hempty
      rcases hempty with h | h | h
      · subst h
        cases l2Config <;> cases zkConfig <;> rfl
      · subst h
        cases txs <;> cases zkConfig <;> rfl
      · subst h
        cases txs <;> cases l2Config <;> rfl
    · intro _
      unfold CheckBlockData
      dsimp only
      split
      · split
        · simp
        · split
          · simp
          · split
            · rename_i er heq
              simp only [Prod.snd, ne_eq, Option.some.injEq]
              intro hc
              subst hc
              exact validateL1Messages_ne_notAllowed _ _ _ heq
            · split <;> simp
      · simp

theorem c2_check_role_gate_witness :
    CheckBlockData ⟨0, 5, none⟩ [] none none (.ok true) =
      (false, some .notAllowed) :=
  (c2_check_role_gate ⟨0, 5, none⟩ [] none none (.ok true)).1 rfl

/-- Claim C3 counterexample: a successful non-empty `DeliverBlock` at engine
height 5 with header number 6 returns height 5 — the pre-import height — not
the claimed new height 6. -/
theorem c3_returns_preimport_height :
    (DeliverBlock ⟨10, 5, none⟩ [Tx.other []] (some nbm3.marshalBinary)
      (some bm3.marshalBinary) (.ok 5) (.ok ())).err = none ∧
    (DeliverBlock ⟨10, 5, none⟩ [Tx.other []] (some nbm3.marshalBinary)
      (some bm3.marshalBinary) (.ok 5) (.ok ())).importCalled = true ∧
    (DeliverBlock ⟨10, 5, none⟩ [Tx.other []] (some nbm3.marshalBinary)
      (some bm3.marshalBinary) (.ok 5) (.ok ())).ret = 5 ∧
    (DeliverBlock ⟨10, 5, none⟩ [Tx.other []] (some nbm3.marshalBinary)
      (some bm3.marshalBinary) (.ok 5) (.ok ())).ret ≠ 6 := by decide

/-- Claim C3 (amended): on a successful non-empty deliver whose header
number is exactly `height + 1`, the Executor advances
`latestProcessedL1Index` by the payload's L1-message count (equal, by
hypothesis, to the number of L1 transactions delivered) and returns the
pre-import height `int64(height)`, not the new height. -/
theorem c3_deliver_advances_cursor (e : Executor) (t : Tx) (ts : List Tx)
    (lb zb : List Nat) (height : Nat) (bm : BLSMessage) (nbm : NonBLSMessage)
    (hbm : BLSMessage.unmarshalBinary zb = .ok bm)
    (hnbm : NonBLSMessage.unmarshalBinary lb = .ok nbm)
    (hnum : (height + 1) % 2 ^ 64 = bm.number)
    (hcount : countL1Messages (t :: ts) = nbm.l1Messages.length) :
    DeliverBlock e (t :: ts) (some lb) (some zb) (.ok height) (.ok ()) =
      ⟨{ e with latestProcessedL1Index :=
           e.latestProcessedL1Index + nbm.l1Messages.length },
        int64OfUint64 height, none, true⟩ := by
  unfold DeliverBlock
  dsimp only
  rw [hbm, hnbm]
  dsimp only
  rw [if_neg (not_not_intro hnum)]
  unfold updateLatestProcessedL1Index
  rw [hcount]

theorem c3_deliver_advances_cursor_witness :
    DeliverBlock ⟨10, 5, none⟩ (Tx.other [] :: []) (some nbm3.marshalBinary)
      (some bm3.marshalBinary) (.ok 5) (.ok ()) =
      ⟨{ latestProcessedL1Index := 10 + nbm3.l1Messages.length,
         maxL1MsgNumPerBlock := 5, syncer := none },
        int64OfUint64 5, none, true⟩ :=
  c3_deliver_advances_cursor ⟨10, 5, none⟩ (Tx.other []) [] nbm3.marshalBinary
    bm3.marshalBinary 5 bm3 nbm3 (by decide) (by decide) (by decide) (by decide)

/-- Claim C4: a non-empty deliver whose deserialized header number is not
exactly `height + 1` returns `ErrWrongBlockNumber` with the pre-call height,
leaves the Executor state unchanged, and never invokes the import, whatever
the import outcome would have been. -/
theorem c4_wrong_height_rejected (e : Executor) (t : Tx) (ts : List Tx)
    (lb zb : List Nat) (height : Nat) (bm : BLSMessage) (nbm : NonBLSMessage)
    (ir : Except EngineErr Unit)
    (hbm : BLSMessage.unmarshalBinary zb = .ok bm)
    (hnbm : NonBLSMessage.unmarshalBinary lb = .ok nbm)
    (hnum : (height + 1) % 2 ^ 64 ≠ bm.number) :
    DeliverBlock e (t :: ts) (some lb) (some zb) (.ok height) ir =
      ⟨e, int64OfUint64 height, some .wrongBlockNumber, false⟩ := by
  unfold DeliverBlock
  dsimp only
  rw [hbm, hnbm]
  dsimp only
  rw [if_pos hnum]

theorem c4_wrong_height_rejected_witness :
    DeliverBlock ⟨10, 5, none⟩ (Tx.other [] :: []) (some nbm3.marshalBinary)
      (some bm4.marshalBinary) (.ok 5) (.ok ()) =
      ⟨⟨10, 5, none⟩, int64OfUint64 5, some .wrongBlockNumber, false⟩ :=
  c4_wrong_height_rejected ⟨10, 5, none⟩ (Tx.other []) [] nbm3.marshalBinary
    bm4.marshalBinary 5 bm4 nbm3 (.ok ()) (by decide) (by decide) (by decide)

end MorphNode
